import Mathlib

/-!
# Verification of the mibpf execution core

A shallow embedding of the mibpf repository's core components, together
with theorems settling the specification's claims about them:

* the relocation resolver (`bytecode-patching/src/relocation_resolution.rs`),
* the JIT back-end and its slot arena usage (`mibpf-server/src/vm/rbpf_jit.rs`),
* the execution pipeline (`mibpf-server/src/vm/vm.rs`),
* the execution manager and workers (`mibpf-server/src/vm/vm_thread.rs`),
* the request conversion (`mibpf-server/src/model/requests.rs`),
* the shell command handler (`mibpf-server/src/shell/bpf_command.rs`).

Machine integers are modelled as `Nat` with explicit `% 2^32` where the
code truncates; Rust panics (out-of-bounds slices, `unwrap` on `None`)
are modelled as explicit `panic`-like outcomes of the embedded functions.
-/

namespace Reloc

/-- The opcode byte of the 16-byte LDDW (load 64-bit immediate) eBPF
instruction pair.  Modelled from the spec: `LDDW_OPCODE` lives in
`bytecode-patching/src/common.rs`, which is not in the sources; the spec's
glossary describes LDDW as the standard eBPF "load 64-bit immediate"
instruction pair, whose opcode byte is 0x18. -/
def LDDW_OPCODE : Nat := 0x18

/-- An ELF symbol as used by `resolve_relocations`: the index of its home
section and its value. -/
structure Sym where
  st_shndx : Nat
  st_value : Nat
deriving DecidableEq, Repr

/-- An ELF section header as used by `resolve_relocations`: its file
offset and size. -/
structure SectionHeader where
  sh_offset : Nat
  sh_size : Nat
deriving DecidableEq, Repr

/-- A relocation record: the offset in `.text` to patch and the index of
the referenced symbol. -/
structure RelocRec where
  r_offset : Nat
  r_sym : Nat
deriving DecidableEq, Repr

/-- The part of a parsed ELF binary that `resolve_relocations` consumes:
the symbol table, the section-header table, and the relocation records
found by `find_relocations` (taken in order over all relocation
sections). -/
structure Elf where
  syms : List Sym
  section_headers : List SectionHeader
  relocations : List RelocRec
deriving DecidableEq, Repr

/-- Read the little-endian 32-bit value stored at byte index `k` of
`t` (out-of-range bytes read as 0).  This is the `immediate_l` field of
the `Lddw` view when `k = offset + 4`: the struct in
`bytecode-patching/src/model.rs` is not in the sources, and is modelled
from the spec's description of LDDW ("whose lower half contains a 32-bit
immediate"), i.e. bytes 4..8 of the 16-byte pair hold the lower
immediate in little-endian order. -/
def readLE32 (t : List Nat) (k : Nat) : Nat :=
  t.getD k 0 + 256 * t.getD (k + 1) 0 + 65536 * t.getD (k + 2) 0 +
    16777216 * t.getD (k + 3) 0

/-- The little-endian 4-byte encoding of `n % 2^32`. -/
def le32 (n : Nat) : List Nat :=
  [n % 256, n / 256 % 256, n / 65536 % 256, n / 16777216 % 256]

/-- Overwrite the bytes of `t` starting at index `k` with `bs`. -/
def writeBytes (t : List Nat) (k : Nat) (bs : List Nat) : List Nat :=
  t.take k ++ bs ++ t.drop (k + bs.length)

/-- `instr.immediate_l += value` on the LDDW instruction at offset `o`:
replace bytes `o+4 .. o+8` by the little-endian encoding of
`(old immediate + v) % 2^32`.  The other 12 bytes of the instruction
pair are written back unchanged by `Lddw::from` / `into`. -/
def patchLddw (t : List Nat) (o v : Nat) : List Nat :=
  writeBytes t (o + 4) (le32 ((readLE32 t (o + 4) + v) % 4294967296))

/-- The patch loop of `resolve_relocations` (lines 62-89): each collected
pair `(offset, value)` is skipped when `offset >= text.len()`, skipped
when `text[offset]` is not the LDDW opcode, and otherwise the 16-byte
slice `text[offset..offset+16]` is reinterpreted and patched.  Taking
that slice panics (result `none`) when `offset + 16 > text.len()`. -/
def patchLoop : List (Nat × Nat) → List Nat → Option (List Nat)
  | [], t => some t
  | (o, v) :: rest, t =>
    if t.length ≤ o then patchLoop rest t
    else if t.getD o 0 ≠ LDDW_OPCODE then patchLoop rest t
    else if t.length < o + 16 then none
    else patchLoop rest (patchLddw t o v)

/-- The collection loop of `resolve_relocations` (lines 40-55) over an
explicit relocation list: a record whose symbol is not found in the
symbol table is skipped; for a resolvable symbol,
`section_headers.get(st_shndx).unwrap()` panics (result `none`) when the
section index is out of range, and otherwise the pair
`(r_offset, (base + sh_offset + st_value) as u32)` is collected. -/
def collectAux (base : Nat) (syms : List Sym) (shs : List SectionHeader) :
    List RelocRec → Option (List (Nat × Nat))
  | [] => some []
  | r :: rest =>
    match syms[r.r_sym]? with
    | none => collectAux base syms shs rest
    | some sym =>
      match shs[sym.st_shndx]? with
      | none => none
      | some sec =>
        (collectAux base syms shs rest).map
          (fun ps => (r.r_offset, (base + sec.sh_offset + sym.st_value) % 4294967296) :: ps)

/-- All relocation pairs collected by `resolve_relocations`. -/
def collectPairs (base : Nat) (elf : Elf) : Option (List (Nat × Nat)) :=
  collectAux base elf.syms elf.section_headers elf.relocations

/-- The byte range of section `sec` inside `program`, as returned by
`get_section_reference_mut`. -/
def textOf (program : List Nat) (sec : SectionHeader) : List Nat :=
  (program.drop sec.sh_offset).take sec.sh_size

/-- Result of running `resolve_relocations`: success carrying the final
contents of the `.text` byte range, a returned fatal error, or a Rust
panic. -/
inductive RRes
  | ok (text : List Nat)
  | fatal (msg : String)
  | panicked
deriving DecidableEq, Repr

/-- `resolve_relocations` from
`bytecode-patching/src/relocation_resolution.rs`.  `parse` is the result
of `goblin::elf::Elf::parse` (`none` on parse failure), `program` the
byte image and `base` its in-memory address.  The `.text` section is
section header index 1; its byte range is cut out of `program` by
`get_section_reference_mut` (modelled from the spec: that helper lives in
`common.rs`, not in the sources; it returns the
`sh_offset .. sh_offset+sh_size` byte range of the section, panicking
when the range exceeds the image). -/
def resolve_relocations (parse : Option Elf) (program : List Nat) (base : Nat) : RRes :=
  match parse with
  | none => .fatal "Failed to parse the ELF binary"
  | some elf =>
    match collectPairs base elf with
    | none => .panicked
    | some pairs =>
      match elf.section_headers[1]? with
      | none => .fatal "Failed to find the .text section"
      | some sec =>
        if sec.sh_offset + sec.sh_size ≤ program.length then
          match patchLoop pairs (textOf program sec) with
          | none => .panicked
          | some t => .ok t
        else .panicked

end Reloc

/-- The binary layout of a program image, from `mibpf_common`'s
`BinaryFileLayout`.  Modelled from the spec: the `enumerations` module is
not in the sources; the spec's wire table lists the five variants. -/
inductive BinaryFileLayout
  | OnlyTextSection
  | FemtoContainersHeader
  | ExtendedHeader
  | RawObjectFile
  | FunctionRelocationMetadata
deriving DecidableEq, Repr

/-- The compact IPC request (`VMExecutionRequestMsg` in
`mibpf-server/src/model/requests.rs`): four byte-sized fields. -/
structure VMExecutionRequestMsg where
  binary_layout : Nat
  suit_slot : Nat
  helper_set : Nat
  helper_indices : Nat
deriving DecidableEq, Repr

namespace Pipeline

/-- The steps named by the `VirtualMachine` trait of
`mibpf-server/src/vm/vm.rs`, in the order `full_run` may invoke them. -/
inductive PStep
  | resolveStep
  | initialiseStep
  | verifyStep
  | executeStep
  | executeOnPktStep
deriving DecidableEq, Repr

/-- A back-end as seen by the default methods of the `VirtualMachine`
trait: the outcome of each of its five operations.  `resolveRelocations`
yields the patched program passed on to `initialiseVm`. -/
structure VMSteps where
  resolveRelocations : Except String (List Nat)
  initialiseVm : List Nat → Except String Unit
  verify : Except String Unit
  execute : Except String Nat
  executeOnCoapPkt : Except String Nat

/-- `VirtualMachine::full_run` (vm.rs lines 16-21): resolve relocations,
initialise, verify, execute, propagating the first error unchanged. -/
def full_run (vm : VMSteps) : Except String Nat :=
  match vm.resolveRelocations with
  | .error e => .error e
  | .ok p =>
    match vm.initialiseVm p with
    | .error e => .error e
    | .ok _ =>
      match vm.verify with
      | .error e => .error e
      | .ok _ => vm.execute

/-- `full_run` instrumented with the list of steps it invoked, in
invocation order. -/
def full_run_trace (vm : VMSteps) : Except String Nat × List PStep :=
  match vm.resolveRelocations with
  | .error e => (.error e, [.resolveStep])
  | .ok p =>
    match vm.initialiseVm p with
    | .error e => (.error e, [.resolveStep, .initialiseStep])
    | .ok _ =>
      match vm.verify with
      | .error e => (.error e, [.resolveStep, .initialiseStep, .verifyStep])
      | .ok _ => (vm.execute, [.resolveStep, .initialiseStep, .verifyStep, .executeStep])

/-- `VirtualMachine::full_run_on_coap_pkt` (vm.rs lines 22-31), with the
step trace: identical to `full_run` except that the last step is
`execute_on_coap_pkt`. -/
def full_run_on_coap_pkt_trace (vm : VMSteps) : Except String Nat × List PStep :=
  match vm.resolveRelocations with
  | .error e => (.error e, [.resolveStep])
  | .ok p =>
    match vm.initialiseVm p with
    | .error e => (.error e, [.resolveStep, .initialiseStep])
    | .ok _ =>
      match vm.verify with
      | .error e => (.error e, [.resolveStep, .initialiseStep, .verifyStep])
      | .ok _ => (vm.executeOnCoapPkt, [.resolveStep, .initialiseStep, .verifyStep, .executeOnPktStep])

end Pipeline

namespace Jit

/-- The part of `VMConfiguration` that `RbpfJIT` reads
(`mibpf-server/src/vm/rbpf_jit.rs`): the binary layout, the
`jit_compile` flag (field `recompile`) and the SUIT slot reused as the
JIT slot index. -/
structure JitConfig where
  layout : BinaryFileLayout
  recompile : Bool
  slot : Nat
deriving DecidableEq, Repr

/-- The JIT slot arena state: the list of currently held slot indices.
Modelled from the spec: `jit_prog_storage` is not in the sources; §4.5
gives `acquire(index)` failing when the slot is already held,
`get_callable(index)` failing when it is free, and `release(index)`.
Per §4.4 step 5, scope exit of the acquisition guard releases the lock
but the slot stays owned by the back-end until released. -/
def acquire_storage_slot (slot : Nat) (held : List Nat) : Option (List Nat) :=
  if slot ∈ held then none else some (slot :: held)

/-- `jit_prog_storage::free_storage_slot`, modelled from the spec
(§4.5 `release(index)`). -/
def free_storage_slot (slot : Nat) (held : List Nat) : List Nat :=
  held.erase slot

/-- `jit_prog_storage::get_program_from_slot`, modelled from the spec
(§4.5 `get_callable(index) → fn-ptr`, fails if the slot is free). -/
def get_program_from_slot (slot : Nat) (held : List Nat) : Option Unit :=
  if slot ∈ held then some () else none

/-- Outcome of a back-end operation together with the arena state it
leaves behind: normal return, returned error, or Rust panic. -/
inductive Outcome (α : Type)
  | ok (a : α) (held : List Nat)
  | err (msg : String) (held : List Nat)
  | panicked (held : List Nat)
deriving DecidableEq, Repr

/-- `RbpfJIT::initialize_vm` (rbpf_jit.rs lines 72-115).  When
`recompile` is unset it returns at once.  Otherwise a non-RawObjectFile
layout is rejected; then `acquire_storage_slot(..).unwrap()` panics when
the slot is already held, and `rbpf::JitMemory::new(..).unwrap()` panics
when compilation fails (`jitCompiles = false`). -/
def initialize_vm (cfg : JitConfig) (jitCompiles : Bool) (held : List Nat) : Outcome Unit :=
  if cfg.recompile = false then .ok () held
  else if cfg.layout ≠ BinaryFileLayout.RawObjectFile then
    .err "The JIT only supports raw object file binary layout" held
  else
    match acquire_storage_slot cfg.slot held with
    | none => .panicked held
    | some held' => if jitCompiles then .ok () held' else .panicked held'

/-- `RbpfJIT::execute` (rbpf_jit.rs lines 141-153):
`get_program_from_slot(..).unwrap()` panics when the slot is free; the
jitted function is then invoked (`fnTraps` models it trapping instead of
returning) and only after it returns is `free_storage_slot` called. -/
def execute (cfg : JitConfig) (fnTraps : Bool) (ret : Nat) (held : List Nat) : Outcome Nat :=
  match get_program_from_slot cfg.slot held with
  | none => .panicked held
  | some _ =>
    if fnTraps then .panicked held
    else .ok ret (free_storage_slot cfg.slot held)

/-- The back-end lifecycle run by the pipeline on the JIT back-end:
`initialize_vm`, then `verify` (which does not touch the arena), then
`execute`, short-circuiting on errors and panics. -/
def lifecycle (cfg : JitConfig) (jitCompiles : Bool) (verifyRes : Except String Unit)
    (fnTraps : Bool) (ret : Nat) (held : List Nat) : Outcome Nat :=
  match initialize_vm cfg jitCompiles held with
  | .panicked held' => .panicked held'
  | .err e held' => .err e held'
  | .ok _ held' =>
    match verifyRes with
    | .error e => .err e held'
    | .ok _ => execute cfg fnTraps ret held'

end Jit

namespace Mgr

/-- An observable action of the execution manager's main loop. -/
inductive Action
  | dispatched (pid : Int) (msg : VMExecutionRequestMsg)
  | logged (msg : String)
deriving DecidableEq, Repr

/-- The request branch of `VMExecutionManager::start`'s loop
(vm_thread.rs lines 128-142): with no free worker the request is
dropped with a logged error; otherwise `free_workers.pop()` removes the
last (most recently pushed) identifier and the request message is sent
to that worker's mailbox.  `Vec::is_empty`/`Vec::pop` are rendered via
`getLast?`. -/
def step_request (free : List Int) (msg : VMExecutionRequestMsg) :
    List Int × List Action :=
  match free.getLast? with
  | none => (free, [.logged "No free workers to execute the request."])
  | some pid => (free.dropLast, [.dispatched pid msg])

/-- The completion branch of the manager loop (vm_thread.rs lines
144-151): the reported worker pid is pushed back onto `free_workers`. -/
def step_completion (free : List Int) (pid : Int) : List Int :=
  free ++ [pid]

end Mgr

namespace Wrk

/-- An observable event of one iteration of `vm_main_thread`. -/
inductive WEvent
  | loaded (slot : Nat)
  | executed (time : Int) (result : Int)
  | sendAttempt (pid : Int) (ok : Bool)
  | logged (msg : String)
deriving DecidableEq, Repr

/-- One iteration of the worker loop `vm_main_thread` (vm_thread.rs
lines 162-202): load the program from the SUIT slot, execute it
(whatever time and result come back), then try to send a
`VMExecutionCompleteMsg` carrying the worker's own pid on the completion
channel, logging an error when the send fails. -/
def worker_iteration (myPid : Int) (slot : Nat) (execTime result : Int)
    (sendOk : Bool) : List WEvent :=
  [.loaded slot, .executed execTime result, .sendAttempt myPid sendOk,
    .logged (if sendOk then "VM execution completion notification sent successfully"
      else "Failed to send notification message.")]

end Wrk

namespace Req

/-- The target VM implementation (`TargetVM` in
`model/enumerations.rs`, not in the sources; the two variants appear
throughout `requests.rs` and `vm_thread.rs`). -/
inductive TargetVM
  | Rbpf
  | FemtoContainer
deriving DecidableEq, Repr

/-- The expanded `VMExecutionRequest` of
`mibpf-server/src/model/requests.rs` (lines 14-21). -/
structure VMExecutionRequest where
  vm_target : TargetVM
  binary_layout : BinaryFileLayout
  suit_slot : Nat
  helper_set : Nat
  helper_indices : Nat
deriving DecidableEq, Repr

/-- `BinaryFileLayout::from(u8)`.  Modelled from the spec: the
conversion lives in `enumerations.rs`, not in the sources; the spec's
wire table (§6) fixes the byte values 0-4, and bytes outside the table
have no defined layout. -/
def binaryFileLayoutFromU8 : Nat → Option BinaryFileLayout
  | 0 => some .OnlyTextSection
  | 1 => some .FemtoContainersHeader
  | 2 => some .ExtendedHeader
  | 3 => some .RawObjectFile
  | 4 => some .FunctionRelocationMetadata
  | _ => none

/-- `From<&VMExecutionRequestMsg> for VMExecutionRequest`
(requests.rs lines 35-45): the target VM is hard-wired to `Rbpf`, the
remaining fields are taken from the message. -/
def requestFromMsg (m : VMExecutionRequestMsg) : Option VMExecutionRequest :=
  (binaryFileLayoutFromU8 m.binary_layout).map (fun bl =>
    { vm_target := .Rbpf
      binary_layout := bl
      suit_slot := m.suit_slot
      helper_set := m.helper_set
      helper_indices := m.helper_indices })

/-- The back-end instance constructed by the worker's dispatch `match`
(vm_thread.rs lines 180-186). -/
inductive Backend
  | rbpfVm (layout : BinaryFileLayout)
  | femtoContainerVm
deriving DecidableEq, Repr

/-- The worker's back-end selection on a reconstructed request
(vm_thread.rs lines 180-186). -/
def selectBackend (r : VMExecutionRequest) : Backend :=
  match r.vm_target with
  | .Rbpf => .rbpfVm r.binary_layout
  | .FemtoContainer => .femtoContainerVm

end Req

namespace Shell

/-- An observable action of the `bpf-execute` command handler. -/
inductive ShAction
  | usage
  | printed (s : String)
  | dispatched (target : Nat) (slot : Nat) (layout : BinaryFileLayout)
  | panicked
deriving DecidableEq, Repr

/-- Rust's `str::parse::<u8>` on a decimal argument (digits only,
value at most 255), rendered over the string's character list. -/
def parseU8 (s : String) : Option Nat :=
  if s.data = [] then none
  else if s.data.all (fun c => c.isDigit) then
    if s.data.foldl (fun acc c => acc * 10 + (c.toNat - '0'.toNat)) 0 ≤ 255 then
      some (s.data.foldl (fun acc c => acc * 10 + (c.toNat - '0'.toNat)) 0)
    else none
  else none

/-- `BinaryFileLayout::from_str`.  Modelled from the spec: `FromStr`
lives in `enumerations.rs`, not in the sources; the spec's layout names
(§3, §6 and scenario S6) are the variant names. -/
def layoutFromStr (s : String) : Option BinaryFileLayout :=
  if s = "OnlyTextSection" then some .OnlyTextSection
  else if s = "FemtoContainersHeader" then some .FemtoContainersHeader
  else if s = "ExtendedHeader" then some .ExtendedHeader
  else if s = "RawObjectFile" then some .RawObjectFile
  else if s = "FunctionRelocationMetadata" then some .FunctionRelocationMetadata
  else none

/-- The target-VM argument match of `handle_command`
(bpf_command.rs lines 40-44). -/
def targetFromStr (s : String) : Option Nat :=
  if s = "rBPF" then some 0
  else if s = "FemtoContainer" then some 1
  else none

/-- `VMExecutionShellCommandHandler::handle_command`
(bpf_command.rs lines 18-62).  Checks `args.len() < 3`, parses the slot
from `args[2]`, matches the target on `args[1]` (unknown target prints
the usage line and returns), then reads `args[3]` — a panic when only
three arguments are present — and parses the layout, falling back to
`FunctionRelocationMetadata` with an "Invalid binary layout" message on
an unknown name; finally it tries to send the request (`sendOk` models
the channel accepting it). -/
def handle_command (args : List String) (sendOk : Bool) : List ShAction :=
  if args.length < 3 then [.usage]
  else
    match parseU8 (args.getD 2 "") with
    | none => [.usage]
    | some slot =>
      match targetFromStr (args.getD 1 "") with
      | none => [.usage]
      | some tgt =>
        if args.length < 4 then [.panicked]
        else
          match layoutFromStr (args.getD 3 "") with
          | some layout =>
            if sendOk then
              [.dispatched tgt slot layout,
                .printed "VM execution request sent successfully"]
            else [.printed "Failed to send VM execution request"]
          | none =>
            if sendOk then
              [.printed "Invalid binary layout",
                .dispatched tgt slot BinaryFileLayout.FunctionRelocationMetadata,
                .printed "VM execution request sent successfully"]
            else [.printed "Invalid binary layout",
              .printed "Failed to send VM execution request"]

end Shell

namespace Reloc

/-- A 32-byte program image used as a concrete relocation scenario: a
single `.text` section covering the whole image, with an LDDW
instruction at offset 16 (spec scenario S2 with text offset 16). -/
def sampleProgram : List Nat :=
  List.replicate 16 0 ++ 0x18 :: List.replicate 15 0

/-- The parsed ELF of the S2-style scenario: one symbol of value 4 in
section 0 (file offset 0x200), the `.text` header at index 1, and one
relocation at text offset 16 referencing symbol 0. -/
def sampleElf : Elf :=
  { syms := [{ st_shndx := 0, st_value := 4 }]
    section_headers := [{ sh_offset := 0x200, sh_size := 0 }, { sh_offset := 0, sh_size := 32 }]
    relocations := [{ r_offset := 16, r_sym := 0 }] }

/-- The `.text` bytes expected after resolving `sampleElf` against base
address 0x20000000: bytes 20-23 hold 0x20000204 little-endian. -/
def sampleTextAfter : List Nat :=
  List.replicate 16 0 ++ [0x18, 0, 0, 0, 0x04, 0x02, 0x00, 0x20] ++ List.replicate 8 0

/-- An ELF whose section-header table has no entry at index 1. -/
def elfNoText : Elf :=
  { syms := [], section_headers := [], relocations := [] }

/-- An ELF whose two collected relocation pairs are both skipped: one
offset beyond `.text`, one pointing at a non-LDDW byte. -/
def elfSkip : Elf :=
  { syms := [{ st_shndx := 0, st_value := 5 }]
    section_headers := [{ sh_offset := 0, sh_size := 4 }, { sh_offset := 0, sh_size := 8 }]
    relocations := [{ r_offset := 99, r_sym := 0 }, { r_offset := 0, r_sym := 0 }] }

/-- A 16-byte program whose single `.text` section has an LDDW opcode at
offset 8: the 16-byte instruction window overruns the section. -/
def progC8 : List Nat :=
  List.replicate 8 0 ++ 0x18 :: List.replicate 7 0

/-- The parsed ELF for the overrun scenario: one relocation at text
offset 8, `.text` of size 16 at index 1. -/
def elfC8 : Elf :=
  { syms := [{ st_shndx := 0, st_value := 0 }]
    section_headers := [{ sh_offset := 0, sh_size := 0 }, { sh_offset := 0, sh_size := 16 }]
    relocations := [{ r_offset := 8, r_sym := 0 }] }

end Reloc

/-- A concrete request message used by the witnesses: RawObjectFile
layout in SUIT slot 2. -/
def msgSample : VMExecutionRequestMsg :=
  { binary_layout := 3, suit_slot := 2, helper_set := 0, helper_indices := 0 }

namespace Pipeline

/-- A concrete back-end whose verification step fails, used by the
pipeline witness. -/
def vmSample : VMSteps :=
  { resolveRelocations := .ok [1]
    initialiseVm := fun _ => .ok ()
    verify := .error "Error: verification failed"
    execute := .ok 7
    executeOnCoapPkt := .ok 9 }

end Pipeline

namespace Reloc

theorem getD_eq (t : List Nat) (j : Nat) : t.getD j 0 = t[j]?.getD 0 :=
  List.getD_eq_getElem?_getD t j 0

theorem length_writeBytes (t bs : List Nat) (k : Nat) (h : k + bs.length ≤ t.length) :
    (writeBytes t k bs).length = t.length := by
  simp only [writeBytes, List.length_append, List.length_take, List.length_drop]
  omega

theorem writeBytes_getD_low (t bs : List Nat) (k j : Nat)
    (h : k + bs.length ≤ t.length) (hj : j < k) :
    (writeBytes t k bs).getD j 0 = t.getD j 0 := by
  have htk : (t.take k).length = k := by simp only [List.length_take]; omega
  rw [getD_eq, getD_eq, writeBytes]
  rw [List.getElem?_append_left
    (by simp only [List.length_append, htk]; omega)]
  rw [List.getElem?_append_left (by omega)]
  rw [List.getElem?_take_of_lt hj]

theorem writeBytes_getD_high (t bs : List Nat) (k j : Nat)
    (h : k + bs.length ≤ t.length) (hj : k + bs.length ≤ j) :
    (writeBytes t k bs).getD j 0 = t.getD j 0 := by
  have htk : (t.take k).length = k := by simp only [List.length_take]; omega
  have hpre : (t.take k ++ bs).length = k + bs.length := by
    simp only [List.length_append, htk]
  rw [getD_eq, getD_eq, writeBytes]
  rw [List.getElem?_append_right (by omega), hpre]
  rw [List.getElem?_drop]
  have heq : k + bs.length + (j - (k + bs.length)) = j := by omega
  rw [heq]

theorem writeBytes_getD_mid (t bs : List Nat) (k j : Nat)
    (h : k + bs.length ≤ t.length) (h1 : k ≤ j) (h2 : j < k + bs.length) :
    (writeBytes t k bs).getD j 0 = bs.getD (j - k) 0 := by
  have htk : (t.take k).length = k := by simp only [List.length_take]; omega
  rw [getD_eq, getD_eq, writeBytes]
  rw [List.getElem?_append_left
    (by simp only [List.length_append, htk]; omega)]
  rw [List.getElem?_append_right (by omega), htk]

theorem length_le32 (n : Nat) : (le32 n).length = 4 := rfl

theorem length_patchLddw (t : List Nat) (o v : Nat) (h : o + 16 ≤ t.length) :
    (patchLddw t o v).length = t.length := by
  apply length_writeBytes
  simp only [length_le32]
  omega

theorem patchLddw_getD_outside (t : List Nat) (o v j : Nat)
    (h : o + 16 ≤ t.length) (hj : j < o + 4 ∨ o + 8 ≤ j) :
    (patchLddw t o v).getD j 0 = t.getD j 0 := by
  rcases hj with hj | hj
  · exact writeBytes_getD_low t _ (o + 4) j (by simp only [length_le32]; omega) hj
  · exact writeBytes_getD_high t _ (o + 4) j (by simp only [length_le32]; omega)
      (by simp only [length_le32]; omega)

theorem readLE32_patchLddw (t : List Nat) (o v : Nat) (h : o + 16 ≤ t.length) :
    readLE32 (patchLddw t o v) (o + 4) = (readLE32 t (o + 4) + v) % 4294967296 := by
  have hb : o + 4 + (le32 ((readLE32 t (o + 4) + v) % 4294967296)).length ≤ t.length := by
    simp only [length_le32]; omega
  have g : ∀ m : Nat, m < 4 →
      (patchLddw t o v).getD (o + 4 + m) 0 =
        (le32 ((readLE32 t (o + 4) + v) % 4294967296)).getD m 0 := by
    intro m hm
    have := writeBytes_getD_mid t (le32 ((readLE32 t (o + 4) + v) % 4294967296))
      (o + 4) (o + 4 + m) hb (by omega) (by simp only [length_le32]; omega)
    simpa using this
  have g0 := g 0 (by omega)
  have g1 := g 1 (by omega)
  have g2 := g 2 (by omega)
  have g3 := g 3 (by omega)
  simp only [Nat.add_zero] at g0
  rw [readLE32, show o + 4 + 1 = o + 4 + 1 from rfl]
  rw [g0]
  rw [g1, g2, g3]
  simp only [le32, List.getD_cons_zero, List.getD_cons_succ]
  omega

theorem length_patchLoop (ps : List (Nat × Nat)) :
    ∀ t t' : List Nat, patchLoop ps t = some t' → t'.length = t.length := by
  induction ps with
  | nil => intro t t' h; simp only [patchLoop, Option.some.injEq] at h; rw [h]
  | cons p rest ih =>
    intro t t' h
    rw [patchLoop] at h
    split at h
    · exact ih t t' h
    · split at h
      · exact ih t t' h
      · split at h
        · exact absurd h (by simp)
        · rename_i h1 h2 h3
          have := ih _ t' h
          rw [this, length_patchLddw]
          omega

theorem patchLoop_getD_eq (ps : List (Nat × Nat)) (j : Nat) :
    ∀ t t' : List Nat, patchLoop ps t = some t' →
      (∀ p ∈ ps, j < p.1 + 4 ∨ p.1 + 8 ≤ j) →
      t'.getD j 0 = t.getD j 0 := by
  induction ps with
  | nil => intro t t' h _; simp only [patchLoop, Option.some.injEq] at h; rw [h]
  | cons p rest ih =>
    intro t t' h hsep
    rw [patchLoop] at h
    split at h
    · exact ih t t' h (fun q hq => hsep q (List.mem_cons_of_mem p hq))
    · split at h
      · exact ih t t' h (fun q hq => hsep q (List.mem_cons_of_mem p hq))
      · split at h
        · exact absurd h (by simp)
        · rename_i h1 h2 h3
          have hrest := ih _ t' h (fun q hq => hsep q (List.mem_cons_of_mem p hq))
          rw [hrest]
          exact patchLddw_getD_outside t p.1 p.2 j (by omega)
            (hsep p (List.mem_cons_self p rest))

theorem patchLoop_append (ps₁ ps₂ : List (Nat × Nat)) :
    ∀ t : List Nat, patchLoop (ps₁ ++ ps₂) t = (patchLoop ps₁ t).bind (patchLoop ps₂) := by
  induction ps₁ with
  | nil => intro t; simp [patchLoop]
  | cons p rest ih =>
    intro t
    rw [List.cons_append, patchLoop, patchLoop]
    split
    · exact ih t
    · split
      · exact ih t
      · split
        · simp
        · exact ih _

theorem patchLoop_skip_all (ps : List (Nat × Nat)) :
    ∀ t : List Nat, (∀ p ∈ ps, t.length ≤ p.1 ∨ t.getD p.1 0 ≠ LDDW_OPCODE) →
      patchLoop ps t = some t := by
  induction ps with
  | nil => intro t _; rfl
  | cons p rest ih =>
    intro t hskip
    rw [patchLoop]
    by_cases hlen : t.length ≤ p.1
    · rw [if_pos hlen]
      exact ih t (fun q hq => hskip q (List.mem_cons_of_mem p hq))
    · rw [if_neg hlen]
      rcases hskip p (List.mem_cons_self p rest) with hs | hs
      · exact absurd hs hlen
      · rw [if_pos hs]
        exact ih t (fun q hq => hskip q (List.mem_cons_of_mem p hq))

theorem patchLoop_correct (ps : List (Nat × Nat)) :
    ∀ (i : Nat) (t t' : List Nat) (o v : Nat),
      patchLoop ps t = some t' →
      ps[i]? = some (o, v) →
      o < t.length →
      t.getD o 0 = LDDW_OPCODE →
      (∀ j, j ≠ i → ∀ o' v', ps[j]? = some (o', v') → o' + 16 ≤ o ∨ o + 16 ≤ o') →
      readLE32 t' (o + 4) = (readLE32 t (o + 4) + v) % 4294967296 := by
  induction ps with
  | nil => intro i t t' o v _ hp; simp at hp
  | cons p rest ih =>
    obtain ⟨po, pv⟩ := p
    intro i t t' o v hloop hp ho hop hsep
    match i with
    | 0 =>
      simp only [List.getElem?_cons_zero, Option.some.injEq, Prod.mk.injEq] at hp
      obtain ⟨h1, h2⟩ := hp
      subst h1
      subst h2
      rw [patchLoop] at hloop
      rw [if_neg (by omega : ¬ t.length ≤ po), if_neg (not_not_intro hop)] at hloop
      by_cases h16 : t.length < po + 16
      · rw [if_pos h16] at hloop; exact absurd hloop (by simp)
      · rw [if_neg h16] at hloop
        have hsepr : ∀ q ∈ rest, ∀ m, po + 4 ≤ m → m < po + 8 →
            m < q.1 + 4 ∨ q.1 + 8 ≤ m := by
          intro q hq m hm1 hm2
          obtain ⟨n, hn⟩ := List.mem_iff_getElem?.mp hq
          have := hsep (n + 1) (by omega) q.1 q.2
            (by simpa using hn)
          omega
        have e0 := patchLoop_getD_eq rest (po + 4) _ t' hloop
          (fun q hq => hsepr q hq (po + 4) (by omega) (by omega))
        have e1 := patchLoop_getD_eq rest (po + 5) _ t' hloop
          (fun q hq => hsepr q hq (po + 5) (by omega) (by omega))
        have e2 := patchLoop_getD_eq rest (po + 6) _ t' hloop
          (fun q hq => hsepr q hq (po + 6) (by omega) (by omega))
        have e3 := patchLoop_getD_eq rest (po + 7) _ t' hloop
          (fun q hq => hsepr q hq (po + 7) (by omega) (by omega))
        have hr : readLE32 t' (po + 4) = readLE32 (patchLddw t po pv) (po + 4) := by
          rw [readLE32, readLE32]
          rw [show po + 4 + 1 = po + 5 from rfl, show po + 4 + 2 = po + 6 from rfl,
            show po + 4 + 3 = po + 7 from rfl]
          rw [e0, e1, e2, e3]
        rw [hr, readLE32_patchLddw t po pv (by omega)]
    | Nat.succ i' =>
      simp only [List.getElem?_cons_succ] at hp
      rw [patchLoop] at hloop
      have hsep0 := hsep 0 (by omega) po pv (by simp)
      have hsep' : ∀ j, j ≠ i' → ∀ o' v', rest[j]? = some (o', v') →
          o' + 16 ≤ o ∨ o + 16 ≤ o' := by
        intro j hj o' v' hg
        exact hsep (j + 1) (by omega) o' v' (by simpa using hg)
      split at hloop
      · exact ih i' t t' o v hloop hp ho hop hsep'
      · split at hloop
        · exact ih i' t t' o v hloop hp ho hop hsep'
        · split at hloop
          · exact absurd hloop (by simp)
          · rename_i h1 h2 h3
            have hlen : (patchLddw t po pv).length = t.length :=
              length_patchLddw t po pv (by omega)
            have hopp : (patchLddw t po pv).getD o 0 = t.getD o 0 :=
              patchLddw_getD_outside t po pv o (by omega) (by omega)
            have hread : readLE32 (patchLddw t po pv) (o + 4) = readLE32 t (o + 4) := by
              rw [readLE32, readLE32]
              rw [patchLddw_getD_outside t po pv (o + 4) (by omega) (by omega),
                patchLddw_getD_outside t po pv (o + 4 + 1) (by omega) (by omega),
                patchLddw_getD_outside t po pv (o + 4 + 2) (by omega) (by omega),
                patchLddw_getD_outside t po pv (o + 4 + 3) (by omega) (by omega)]
            have := ih i' (patchLddw t po pv) t' o v hloop hp
              (by omega) (by rw [hopp]; exact hop) hsep'
            rw [this, hread]

theorem collectAux_mem (base : Nat) (syms : List Sym) (shs : List SectionHeader) :
    ∀ (rs : List RelocRec) (ps : List (Nat × Nat)) (o v : Nat),
      collectAux base syms shs rs = some ps → (o, v) ∈ ps →
      ∃ r ∈ rs, ∃ sym, syms[r.r_sym]? = some sym ∧
        ∃ sec, shs[sym.st_shndx]? = some sec ∧ o = r.r_offset ∧
          v = (base + sec.sh_offset + sym.st_value) % 4294967296 := by
  intro rs
  induction rs with
  | nil =>
    intro ps o v hc hm
    simp only [collectAux, Option.some.injEq] at hc
    rw [← hc] at hm
    simp at hm
  | cons r rest ih =>
    intro ps o v hc hm
    rw [collectAux] at hc
    split at hc
    · rename_i hsym
      obtain ⟨r', hr', rest'⟩ := ih ps o v hc hm
      exact ⟨r', List.mem_cons_of_mem r hr', rest'⟩
    · rename_i sym hsym
      split at hc
      · exact absurd hc (by simp)
      · rename_i sec hsec
        rcases hps : collectAux base syms shs rest with _ | ps'
        · rw [hps] at hc; exact absurd hc (by simp)
        · rw [hps] at hc
          simp only [Option.map_some', Option.some.injEq] at hc
          rw [← hc] at hm
          rcases List.mem_cons.mp hm with hm | hm
          · refine ⟨r, List.mem_cons_self r rest, sym, hsym, sec, hsec, ?_, ?_⟩
            · exact (Prod.mk.injEq _ _ _ _ ▸ hm).1
            · exact (Prod.mk.injEq _ _ _ _ ▸ hm).2
          · obtain ⟨r', hr', rest'⟩ := ih ps' o v hps hm
            exact ⟨r', List.mem_cons_of_mem r hr', rest'⟩

end Reloc

/-- **C1.** For every relocation record collected by
`resolve_relocations` whose symbol is resolvable, whose offset lies
within the `.text` section, and whose byte at `text[offset]` is the LDDW
opcode, after `resolve_relocations` returns success the 32-bit lower
immediate of the 16-byte LDDW instruction at that offset equals
(previous immediate value + image base address + file offset of the
symbol's section + symbol value) mod 2^32.  (Records are assumed 16
bytes apart, the LDDW instruction-pair granularity, so that patches do
not overlap.) -/
theorem claim_C1_lddw_lower_immediate
    (elf : Reloc.Elf) (program : List Nat) (base : Nat)
    (pairs : List (Nat × Nat)) (sec : Reloc.SectionHeader) (text' : List Nat)
    (i o v : Nat)
    (hcollect : Reloc.collectPairs base elf = some pairs)
    (hsec : elf.section_headers[1]? = some sec)
    (hres : Reloc.resolve_relocations (some elf) program base = .ok text')
    (hpair : pairs[i]? = some (o, v))
    (ho : o < (Reloc.textOf program sec).length)
    (hop : (Reloc.textOf program sec).getD o 0 = Reloc.LDDW_OPCODE)
    (hsep : ∀ j, j ≠ i → ∀ o' v', pairs[j]? = some (o', v') →
      o' + 16 ≤ o ∨ o + 16 ≤ o') :
    ∃ r ∈ elf.relocations, ∃ sym, elf.syms[r.r_sym]? = some sym ∧
      ∃ sec', elf.section_headers[sym.st_shndx]? = some sec' ∧ o = r.r_offset ∧
        Reloc.readLE32 text' (o + 4) =
          (Reloc.readLE32 (Reloc.textOf program sec) (o + 4) +
            (base + sec'.sh_offset + sym.st_value)) % 4294967296 := by
  simp only [Reloc.resolve_relocations, hcollect, hsec] at hres
  by_cases hbound : sec.sh_offset + sec.sh_size ≤ program.length
  · rw [if_pos hbound] at hres
    rcases hpl : Reloc.patchLoop pairs (Reloc.textOf program sec) with _ | t
    · rw [hpl] at hres; exact absurd hres (by simp)
    · rw [hpl] at hres
      simp only [Reloc.RRes.ok.injEq] at hres
      subst hres
      have hmem : (o, v) ∈ pairs := List.mem_iff_getElem?.mpr ⟨i, hpair⟩
      obtain ⟨r, hr, sym, hsym, sec', hsec', hoeq, hveq⟩ :=
        Reloc.collectAux_mem base elf.syms elf.section_headers elf.relocations
          pairs o v hcollect hmem
      have hcorrect := Reloc.patchLoop_correct pairs i (Reloc.textOf program sec)
        t o v hpl hpair ho hop hsep
      refine ⟨r, hr, sym, hsym, sec', hsec', hoeq, ?_⟩
      rw [hcorrect, hveq]
      omega
  · rw [if_neg hbound] at hres
    exact absurd hres (by simp)

/-- Witness for C1: the S2-style scenario.  A single `.data` relocation
at text offset 16 whose symbol (value 4) lives in the section at file
offset 0x200; with image base 0x20000000 the patched lower immediate is
0x20000204. -/
theorem claim_C1_witness :
    ∃ r ∈ Reloc.sampleElf.relocations, ∃ sym,
      Reloc.sampleElf.syms[r.r_sym]? = some sym ∧
      ∃ sec', Reloc.sampleElf.section_headers[sym.st_shndx]? = some sec' ∧
        16 = r.r_offset ∧
        Reloc.readLE32 Reloc.sampleTextAfter (16 + 4) =
          (Reloc.readLE32
              (Reloc.textOf Reloc.sampleProgram
                { sh_offset := 0, sh_size := 32 }) (16 + 4) +
            (0x20000000 + sec'.sh_offset + sym.st_value)) % 4294967296 :=
  claim_C1_lddw_lower_immediate Reloc.sampleElf Reloc.sampleProgram 0x20000000
    [(16, 0x20000204)] { sh_offset := 0, sh_size := 32 } Reloc.sampleTextAfter
    0 16 0x20000204
    (by decide) (by decide) (by decide) (by decide) (by decide) (by decide)
    (by
      intro j hj o' v' hp
      match j with
      | 0 => exact absurd rfl hj
      | Nat.succ j => simp at hp)

/-- **C6.** `resolve_relocations` returns a fatal error exactly when the
ELF image cannot be parsed or the `.text` section is missing; every
collected relocation pair whose offset is outside `.text` or whose
opcode at `text[offset]` is not LDDW is skipped non-fatally and the
function still returns success. -/
theorem claim_C6_fatal_error_exactness (program : List Nat) (base : Nat) :
    (Reloc.resolve_relocations none program base =
      .fatal "Failed to parse the ELF binary") ∧
    (∀ elf : Reloc.Elf, ∀ pairs, Reloc.collectPairs base elf = some pairs →
      elf.section_headers[1]? = none →
      Reloc.resolve_relocations (some elf) program base =
        .fatal "Failed to find the .text section") ∧
    (∀ elf : Reloc.Elf, ∀ pairs sec, Reloc.collectPairs base elf = some pairs →
      elf.section_headers[1]? = some sec →
      sec.sh_offset + sec.sh_size ≤ program.length →
      (∀ p ∈ pairs, (Reloc.textOf program sec).length ≤ p.1 ∨
        (Reloc.textOf program sec).getD p.1 0 ≠ Reloc.LDDW_OPCODE) →
      Reloc.resolve_relocations (some elf) program base =
        .ok (Reloc.textOf program sec)) ∧
    (∀ elf : Reloc.Elf, ∀ msg,
      Reloc.resolve_relocations (some elf) program base = .fatal msg →
      elf.section_headers[1]? = none ∧ msg = "Failed to find the .text section") := by
  refine ⟨rfl, ?_, ?_, ?_⟩
  · intro elf pairs hc hsec
    simp only [Reloc.resolve_relocations, hc, hsec]
  · intro elf pairs sec hc hsec hbound hskip
    simp only [Reloc.resolve_relocations, hc, hsec, if_pos hbound,
      Reloc.patchLoop_skip_all pairs (Reloc.textOf program sec) hskip]
  · intro elf msg hres
    simp only [Reloc.resolve_relocations] at hres
    rcases hc : Reloc.collectPairs base elf with _ | pairs
    · simp only [hc] at hres; exact absurd hres (by simp)
    · simp only [hc] at hres
      rcases hsec : elf.section_headers[1]? with _ | sec
      · simp only [hsec, Reloc.RRes.fatal.injEq] at hres
        exact ⟨rfl, hres.symm⟩
      · simp only [hsec] at hres
        by_cases hbound : sec.sh_offset + sec.sh_size ≤ program.length
        · rw [if_pos hbound] at hres
          rcases hpl : Reloc.patchLoop pairs (Reloc.textOf program sec) with _ | t
          · rw [hpl] at hres; exact absurd hres (by simp)
          · rw [hpl] at hres; exact absurd hres (by simp)
        · rw [if_neg hbound] at hres; exact absurd hres (by simp)

/-- Witness for C6: the parse-failure branch, the missing-`.text`
branch, a run whose two collected pairs (offset 99 beyond the 8-byte
text, offset 0 over a non-LDDW byte) are both skipped yet the run
succeeds, and the exactness direction applied to the missing-`.text`
run. -/
theorem claim_C6_witness :
    Reloc.resolve_relocations none (List.replicate 8 0) 0 =
      .fatal "Failed to parse the ELF binary" ∧
    Reloc.resolve_relocations (some Reloc.elfNoText) (List.replicate 8 0) 0 =
      .fatal "Failed to find the .text section" ∧
    Reloc.resolve_relocations (some Reloc.elfSkip) (List.replicate 8 0) 0 =
      .ok (Reloc.textOf (List.replicate 8 0) { sh_offset := 0, sh_size := 8 }) ∧
    (Reloc.elfNoText.section_headers[1]? = none ∧
      "Failed to find the .text section" = "Failed to find the .text section") := by
  have h := claim_C6_fatal_error_exactness (List.replicate 8 0) 0
  exact ⟨h.1,
    h.2.1 Reloc.elfNoText [] (by decide) (by decide),
    h.2.2.1 Reloc.elfSkip [(99, 5), (0, 5)] { sh_offset := 0, sh_size := 8 }
      (by decide) (by decide) (by decide) (by decide),
    h.2.2.2 Reloc.elfNoText "Failed to find the .text section"
      (h.2.1 Reloc.elfNoText [] (by decide) (by decide))⟩

/-- **C8.** The out-of-range guard in `resolve_relocations` only skips a
collected relocation pair when its offset is at least the length of
`.text`; a pair whose offset `o` satisfies `text.len() - 16 < o <
text.len()` with the LDDW opcode at `text[o]` makes the subsequent
16-byte slice `text[o..o+16]` overrun the section — an out-of-bounds
slice panic — instead of being skipped non-fatally. -/
theorem claim_C8_oob_relocation_panics
    (elf : Reloc.Elf) (program : List Nat) (base : Nat)
    (pairs₁ pairs₂ : List (Nat × Nat)) (o v : Nat) (sec : Reloc.SectionHeader)
    (t : List Nat)
    (hcollect : Reloc.collectPairs base elf = some (pairs₁ ++ (o, v) :: pairs₂))
    (hsec : elf.section_headers[1]? = some sec)
    (hbound : sec.sh_offset + sec.sh_size ≤ program.length)
    (hpre : Reloc.patchLoop pairs₁ (Reloc.textOf program sec) = some t)
    (ho1 : o < t.length) (ho2 : t.length < o + 16)
    (hop : t.getD o 0 = Reloc.LDDW_OPCODE) :
    Reloc.patchLoop ((o, v) :: pairs₂) t = none ∧
    Reloc.resolve_relocations (some elf) program base = .panicked := by
  have hhead : Reloc.patchLoop ((o, v) :: pairs₂) t = none := by
    rw [Reloc.patchLoop]
    rw [if_neg (by omega : ¬ t.length ≤ o), if_neg (not_not_intro hop),
      if_pos ho2]
  refine ⟨hhead, ?_⟩
  simp only [Reloc.resolve_relocations, hcollect, hsec, if_pos hbound]
  rw [Reloc.patchLoop_append pairs₁ ((o, v) :: pairs₂) (Reloc.textOf program sec)]
  rw [hpre]
  simp [hhead]

/-- Witness for C8: a 16-byte `.text` with an LDDW opcode at offset 8;
8 lies inside the section but 8 + 16 overruns it, so the resolver
panics instead of skipping the record. -/
theorem claim_C8_witness :
    Reloc.patchLoop [(8, 0)]
      (Reloc.textOf Reloc.progC8 { sh_offset := 0, sh_size := 16 }) = none ∧
    Reloc.resolve_relocations (some Reloc.elfC8) Reloc.progC8 0 = .panicked :=
  claim_C8_oob_relocation_panics Reloc.elfC8 Reloc.progC8 0 [] [] 8 0
    { sh_offset := 0, sh_size := 16 }
    (Reloc.textOf Reloc.progC8 { sh_offset := 0, sh_size := 16 })
    (by decide) (by decide) (by decide) (by decide) (by decide) (by decide)
    (by decide)

/-- **C2 (code bug).** The claim requires a matching release of every
acquired JIT storage slot on every exit path of the back-end's
lifecycle, including error paths.  On the code, the only release sits in
`execute` after the jitted function returns: when `initialize_vm`
acquires slot 0 and `verify` then fails, the lifecycle exits with the
verification error while the arena still holds slot 0 — no release
happens on this path. -/
theorem claim_C2_slot_leak_on_verify_error :
    Jit.lifecycle
      { layout := BinaryFileLayout.RawObjectFile, recompile := true, slot := 0 }
      true (.error "Error: verification failed") false 0 [] =
      .err "Error: verification failed" [0] := rfl

/-- **C3.** For every program buffer, `full_run` performs exactly the
sequence resolve_relocations, initialise_vm, verify, execute (or
execute_on_coap_pkt in the packet variant); if any step returns an
error, that error is returned unchanged and none of the later steps is
invoked. -/
theorem claim_C3_pipeline_sequence (vm : Pipeline.VMSteps) :
    ((Pipeline.full_run_trace vm).1 = Pipeline.full_run vm) ∧
    (∀ e, vm.resolveRelocations = .error e →
      Pipeline.full_run_trace vm = (.error e, [.resolveStep]) ∧
      Pipeline.full_run_on_coap_pkt_trace vm = (.error e, [.resolveStep])) ∧
    (∀ p e, vm.resolveRelocations = .ok p → vm.initialiseVm p = .error e →
      Pipeline.full_run_trace vm = (.error e, [.resolveStep, .initialiseStep]) ∧
      Pipeline.full_run_on_coap_pkt_trace vm =
        (.error e, [.resolveStep, .initialiseStep])) ∧
    (∀ p e, vm.resolveRelocations = .ok p → vm.initialiseVm p = .ok () →
      vm.verify = .error e →
      Pipeline.full_run_trace vm =
        (.error e, [.resolveStep, .initialiseStep, .verifyStep]) ∧
      Pipeline.full_run_on_coap_pkt_trace vm =
        (.error e, [.resolveStep, .initialiseStep, .verifyStep])) ∧
    (∀ p, vm.resolveRelocations = .ok p → vm.initialiseVm p = .ok () →
      vm.verify = .ok () →
      Pipeline.full_run_trace vm =
        (vm.execute, [.resolveStep, .initialiseStep, .verifyStep, .executeStep]) ∧
      Pipeline.full_run_on_coap_pkt_trace vm =
        (vm.executeOnCoapPkt,
          [.resolveStep, .initialiseStep, .verifyStep, .executeOnPktStep])) := by
  refine ⟨?_, ?_, ?_, ?_, ?_⟩
  · rcases h1 : vm.resolveRelocations with e | p
    · simp [Pipeline.full_run, Pipeline.full_run_trace, h1]
    · rcases h2 : vm.initialiseVm p with e | u
      · simp [Pipeline.full_run, Pipeline.full_run_trace, h1, h2]
      · rcases h3 : vm.verify with e | u2
        · simp [Pipeline.full_run, Pipeline.full_run_trace, h1, h2, h3]
        · simp [Pipeline.full_run, Pipeline.full_run_trace, h1, h2, h3]
  · intro e h1
    exact ⟨by simp [Pipeline.full_run_trace, h1],
      by simp [Pipeline.full_run_on_coap_pkt_trace, h1]⟩
  · intro p e h1 h2
    exact ⟨by simp [Pipeline.full_run_trace, h1, h2],
      by simp [Pipeline.full_run_on_coap_pkt_trace, h1, h2]⟩
  · intro p e h1 h2 h3
    exact ⟨by simp [Pipeline.full_run_trace, h1, h2, h3],
      by simp [Pipeline.full_run_on_coap_pkt_trace, h1, h2, h3]⟩
  · intro p h1 h2 h3
    exact ⟨by simp [Pipeline.full_run_trace, h1, h2, h3],
      by simp [Pipeline.full_run_on_coap_pkt_trace, h1, h2, h3]⟩

/-- Witness for C3: a back-end whose verification fails — `full_run`
stops after verify, returns the error unchanged, and never invokes
execute. -/
theorem claim_C3_witness :
    Pipeline.full_run_trace Pipeline.vmSample =
      (.error "Error: verification failed",
        [.resolveStep, .initialiseStep, .verifyStep]) ∧
    Pipeline.full_run_on_coap_pkt_trace Pipeline.vmSample =
      (.error "Error: verification failed",
        [.resolveStep, .initialiseStep, .verifyStep]) :=
  (claim_C3_pipeline_sequence Pipeline.vmSample).2.2.2.1 [1]
    "Error: verification failed" rfl rfl rfl

/-- **C4.** When the manager receives an execution request and the
free-worker set is empty, the request is dropped with a logged error
(the compact request message carries no reply channel, so the requester
is unreachable and no response can be sent); when the set is non-empty
the most recently freed identifier is popped (LIFO) and the request is
forwarded to that worker's mailbox; a completion notification pushes the
reported identifier back, making it the next to be popped. -/
theorem claim_C4_manager_dispatch (free : List Int)
    (msg : VMExecutionRequestMsg) (pid : Int) :
    (free = [] → Mgr.step_request free msg =
      ([], [.logged "No free workers to execute the request."])) ∧
    (free.getLast? = some pid → Mgr.step_request free msg =
      (free.dropLast, [.dispatched pid msg])) ∧
    (Mgr.step_completion free pid = free ++ [pid] ∧
      (Mgr.step_completion free pid).getLast? = some pid) := by
  refine ⟨?_, ?_, rfl, List.getLast?_concat free⟩
  · intro h; subst h; rfl
  · intro h; simp only [Mgr.step_request, h]

/-- Witness for C4: an empty free set drops the request with the logged
error; the free set `[1, 2]` dispatches to worker 2 (the most recently
pushed) leaving `[1]`; a completion from worker 7 appends 7 as the next
worker to pop. -/
theorem claim_C4_witness :
    Mgr.step_request [] msgSample =
      ([], [.logged "No free workers to execute the request."]) ∧
    Mgr.step_request [1, 2] msgSample = ([1], [.dispatched 2 msgSample]) ∧
    Mgr.step_completion [1] 7 = [1, 7] ∧
    (Mgr.step_completion [1] 7).getLast? = some 7 :=
  ⟨(claim_C4_manager_dispatch [] msgSample 0).1 rfl,
    (claim_C4_manager_dispatch [1, 2] msgSample 2).2.1 rfl,
    (claim_C4_manager_dispatch [1] msgSample 7).2.2.1,
    (claim_C4_manager_dispatch [1] msgSample 7).2.2.2⟩

/-- **C5 counterexample.** The claim says every binary layout other than
RawObjectFile makes the JIT back-end's initialize return an error.  With
the recompile flag unset, `initialize_vm` returns success before the
layout check: layout `OnlyTextSection` is accepted. -/
theorem claim_C5_counterexample :
    Jit.initialize_vm
      { layout := BinaryFileLayout.OnlyTextSection, recompile := false, slot := 0 }
      true [] = .ok () [] := rfl

/-- **C5 (amended).** When the recompile (`jit_compile`) flag is set,
the JIT back-end's initialize rejects every layout other than
RawObjectFile with the error "The JIT only supports raw object file
binary layout", leaving the slot arena untouched (no slot acquired, so
none leaked); when the recompile flag is unset, initialize returns
success, also without acquiring a slot. -/
theorem claim_C5_amended (cfg : Jit.JitConfig) (jc : Bool) (held : List Nat) :
    (cfg.recompile = true → cfg.layout ≠ BinaryFileLayout.RawObjectFile →
      Jit.initialize_vm cfg jc held =
        .err "The JIT only supports raw object file binary layout" held) ∧
    (cfg.recompile = false → Jit.initialize_vm cfg jc held = .ok () held) := by
  constructor
  · intro hr hl
    simp [Jit.initialize_vm, hr, hl]
  · intro hr
    simp [Jit.initialize_vm, hr]

/-- Witness for C5 amended: layout `OnlyTextSection` with the recompile
flag set is rejected with the raw-object-file error and the arena stays
empty. -/
theorem claim_C5_amended_witness :
    Jit.initialize_vm
      { layout := BinaryFileLayout.OnlyTextSection, recompile := true, slot := 0 }
      true [] = .err "The JIT only supports raw object file binary layout" [] :=
  (claim_C5_amended
    { layout := BinaryFileLayout.OnlyTextSection, recompile := true, slot := 0 }
    true []).1 rfl (by decide)

/-- **C7.** In every iteration of the worker loop, a completion message
carrying the worker's own identifier is posted to the completion channel
directly after execution returns — whatever time and result execution
reported, including error results — and a failed send is logged as
"Failed to send notification message.". -/
theorem claim_C7_worker_completion (myPid : Int) (slot : Nat) (t r : Int)
    (ok : Bool) :
    ((Wrk.worker_iteration myPid slot t r ok)[1]? = some (.executed t r)) ∧
    ((Wrk.worker_iteration myPid slot t r ok)[2]? =
      some (.sendAttempt myPid ok)) ∧
    (ok = false →
      Wrk.WEvent.logged "Failed to send notification message." ∈
        Wrk.worker_iteration myPid slot t r ok) := by
  refine ⟨rfl, rfl, ?_⟩
  intro h
  subst h
  simp [Wrk.worker_iteration]

/-- Witness for C7: worker 5 executes slot 2 with an error result (-1)
and the send fails; the completion attempt with pid 5 still follows the
execution and the failure is logged. -/
theorem claim_C7_witness :
    ((Wrk.worker_iteration 5 2 100 (-1) false)[1]? = some (.executed 100 (-1))) ∧
    ((Wrk.worker_iteration 5 2 100 (-1) false)[2]? = some (.sendAttempt 5 false)) ∧
    Wrk.WEvent.logged "Failed to send notification message." ∈
      Wrk.worker_iteration 5 2 100 (-1) false :=
  ⟨(claim_C7_worker_completion 5 2 100 (-1) false).1,
    (claim_C7_worker_completion 5 2 100 (-1) false).2.1,
    (claim_C7_worker_completion 5 2 100 (-1) false).2.2 rfl⟩

/-- **C9.** Every `VMExecutionRequest` reconstructed from a
`VMExecutionRequestMsg` has `vm_target = Rbpf` regardless of the message
contents — so the worker's FemtoContainer dispatch branch is unreachable
— while binary_layout, suit_slot, helper_set and helper_indices are
taken from the corresponding message fields. -/
theorem claim_C9_request_reconstruction (m : VMExecutionRequestMsg)
    (r : Req.VMExecutionRequest) (h : Req.requestFromMsg m = some r) :
    r.vm_target = Req.TargetVM.Rbpf ∧
    Req.binaryFileLayoutFromU8 m.binary_layout = some r.binary_layout ∧
    r.suit_slot = m.suit_slot ∧ r.helper_set = m.helper_set ∧
    r.helper_indices = m.helper_indices ∧
    Req.selectBackend r = Req.Backend.rbpfVm r.binary_layout := by
  rcases hb : Req.binaryFileLayoutFromU8 m.binary_layout with _ | bl
  · rw [Req.requestFromMsg, hb] at h
    exact absurd h (by simp)
  · rw [Req.requestFromMsg, hb] at h
    simp only [Option.map_some', Option.some.injEq] at h
    subst h
    exact ⟨rfl, rfl, rfl, rfl, rfl, rfl⟩

/-- Witness for C9: the message (layout byte 3, slot 2) reconstructs to
an Rbpf-targeted request with RawObjectFile layout. -/
theorem claim_C9_witness :
    (Req.requestFromMsg msgSample =
      some (⟨.Rbpf, .RawObjectFile, 2, 0, 0⟩ : Req.VMExecutionRequest)) ∧
    ((⟨.Rbpf, .RawObjectFile, 2, 0, 0⟩ : Req.VMExecutionRequest).vm_target =
      Req.TargetVM.Rbpf) ∧
    Req.selectBackend (⟨.Rbpf, .RawObjectFile, 2, 0, 0⟩ : Req.VMExecutionRequest) =
      Req.Backend.rbpfVm BinaryFileLayout.RawObjectFile :=
  ⟨rfl,
    (claim_C9_request_reconstruction msgSample
      ⟨.Rbpf, .RawObjectFile, 2, 0, 0⟩ rfl).1,
    (claim_C9_request_reconstruction msgSample
      ⟨.Rbpf, .RawObjectFile, 2, 0, 0⟩ rfl).2.2.2.2.2⟩

/-- **C10 counterexample.** The claim says any invocation of
`bpf-execute` with an unknown enum value is rejected with a usage line
and no request is dispatched.  `bpf-execute rBPF 2 Garbage` has an
unknown binary-layout value, yet the handler prints an invalid-layout
message, falls back to the default layout and still dispatches the
request. -/
theorem claim_C10_counterexample :
    Shell.handle_command ["bpf-execute", "rBPF", "2", "Garbage"] true =
      [.printed "Invalid binary layout",
        .dispatched 0 2 BinaryFileLayout.FunctionRelocationMetadata,
        .printed "VM execution request sent successfully"] := by
  decide

/-- **C10 (amended).** An unknown target-VM value makes `handle_command`
print the usage line and return without dispatching (the handler reports
no exit code to the shell); an unknown binary-layout value prints an
"Invalid binary layout" message, falls back to
`FunctionRelocationMetadata`, and still dispatches the request. -/
theorem claim_C10_amended (a0 a1 a2 a3 : String) (rest : List String)
    (ok : Bool) (slot tgt : Nat) :
    (Shell.parseU8 a2 = some slot → Shell.targetFromStr a1 = none →
      Shell.handle_command (a0 :: a1 :: a2 :: a3 :: rest) ok = [.usage]) ∧
    (Shell.parseU8 a2 = some slot → Shell.targetFromStr a1 = some tgt →
      Shell.layoutFromStr a3 = none →
      Shell.handle_command (a0 :: a1 :: a2 :: a3 :: rest) ok =
        .printed "Invalid binary layout" ::
          (if ok then
            [.dispatched tgt slot BinaryFileLayout.FunctionRelocationMetadata,
              .printed "VM execution request sent successfully"]
          else [.printed "Failed to send VM execution request"])) := by
  have hlen3 : ¬ (a0 :: a1 :: a2 :: a3 :: rest).length < 3 := by
    simp only [List.length_cons]
    omega
  have hlen4 : ¬ (a0 :: a1 :: a2 :: a3 :: rest).length < 4 := by
    simp only [List.length_cons]
    omega
  have hg1 : (a0 :: a1 :: a2 :: a3 :: rest).getD 1 "" = a1 := rfl
  have hg2 : (a0 :: a1 :: a2 :: a3 :: rest).getD 2 "" = a2 := rfl
  have hg3 : (a0 :: a1 :: a2 :: a3 :: rest).getD 3 "" = a3 := rfl
  constructor
  · intro hs ht
    simp only [Shell.handle_command, if_neg hlen3, hg1, hg2, hs, ht]
  · intro hs ht hl
    simp only [Shell.handle_command, if_neg hlen3, if_neg hlen4,
      hg1, hg2, hg3, hs, ht, hl]
    rcases ok with _ | _ <;> simp

/-- Witness for C10 amended: an unknown target VM prints only the usage
line; the Garbage layout falls back and dispatches. -/
theorem claim_C10_amended_witness :
    Shell.handle_command ["bpf-execute", "FooVM", "2", "RawObjectFile"] true =
      [.usage] ∧
    Shell.handle_command ["bpf-execute", "rBPF", "2", "Garbage"] true =
      .printed "Invalid binary layout" ::
        (if true then
          [.dispatched 0 2 BinaryFileLayout.FunctionRelocationMetadata,
            .printed "VM execution request sent successfully"]
        else [.printed "Failed to send VM execution request"]) :=
  ⟨(claim_C10_amended "bpf-execute" "FooVM" "2" "RawObjectFile" [] true 2 0).1
      (by decide) (by decide),
    (claim_C10_amended "bpf-execute" "rBPF" "2" "Garbage" [] true 2 0).2
      (by decide) (by decide) (by decide)⟩
